import Mathlib

/-
Verification development for the joplin-plugin-wikilinks repository.

The definitions below are a shallow embedding of the plugin's source:
 - `src/index.ts` (note resolution, message handling),
 - the CodeMirror content script (wikilink scanning, link conversion,
   line scrolling),
 - the markdown-it content script (preview inline rule).

JavaScript strings are modelled at character granularity (`List Char` /
`String`); `String.prototype.indexOf` becomes `charIndexOf`, and
`String.prototype.slice` becomes `strSlice` / `strSliceFrom`.  The
asynchronous Joplin data API is modelled by an explicit environment
(`Env`): a by-id lookup returning `Option Note` (failure = the thrown
not-found the code catches) and a search function returning the full
sequence of pages the paginated loop would traverse (`none` models the
call throwing, which the code catches and turns into a `null` result).
-/

namespace Wikilinks

-- ────────────────────────────────────────────────
-- JS-style string primitives
-- ────────────────────────────────────────────────

/-- Model of `String.prototype.indexOf(char)`: index of the first
occurrence of `c`, or `none` (JS returns `-1`). -/
def charIndexOf : List Char → Char → Option Nat
  | [], _ => none
  | c :: cs, d => if c = d then some 0 else (charIndexOf cs d).map (· + 1)

/-- Model of `s.indexOf(c)` at the `String` level. -/
def strIndexOf (s : String) (c : Char) : Option Nat :=
  charIndexOf s.toList c

/-- Model of `s.slice(a, b)` (with `0 ≤ a ≤ b`). -/
def strSlice (s : String) (a b : Nat) : String :=
  ((s.toList.drop a).take (b - a)).asString

/-- Model of `s.slice(a)`. -/
def strSliceFrom (s : String) (a : Nat) : String :=
  (s.toList.drop a).asString

/-- JS truthiness of a nullable string: `null` and `""` are falsy. -/
def jsTruthy : Option String → Bool
  | none => false
  | some s => s ≠ ""

/-- ASCII model of the lower-casing `toLowerCase` applies per
character. -/
def charToLower (c : Char) : Char :=
  if 'A' ≤ c ∧ c ≤ 'Z' then Char.ofNat (c.toNat + 32) else c

/-- Model of `s.toLowerCase()`. -/
def strToLower (s : String) : String :=
  (s.toList.map charToLower).asString

/-- Model of `s.split(' ')[0]`: the prefix of `s` before the first
space (`''.split(' ')[0]` is `''`). -/
def firstWord (s : String) : String :=
  (s.toList.takeWhile (fun c => c ≠ ' ')).asString

-- ────────────────────────────────────────────────
-- Preview inline rule (mdWikilinks.ts, `wikilinkInlineRule`)
-- ────────────────────────────────────────────────

/-- Split the bracket content on the first `|`:
`target = raw.slice(0, pipeIdx)`, `alias = raw.slice(pipeIdx + 1)`
(`none` when no pipe, mirroring the `pipeIdx >= 0 ? … : null` tests). -/
def parseWikilinkContent (raw : String) : String × Option String :=
  match strIndexOf raw '|' with
  | some p => (strSlice raw 0 p, some (strSliceFrom raw (p + 1)))
  | none => (raw, none)

/-- The `hashIdx >= 0 ? target.slice(0, hashIdx) || target.slice(hashIdx + 1) : target`
branch of the display-text computation: strip a `#heading` suffix, and
when the stripped prefix is empty (JS `||` on the empty string) fall back
to the text after the `#`. -/
def displayFromTarget (target : String) : String :=
  match strIndexOf target '#' with
  | some h =>
    let stripped := strSlice target 0 h
    if stripped = "" then strSliceFrom target (h + 1) else stripped
  | none => target

/-- Display text of a wikilink occurrence with bracket content `raw`,
as computed by `wikilinkInlineRule`: `alias ? alias : (…)` — a present
but empty alias is falsy in JS and falls through to the target branch. -/
def wikilinkDisplayText (raw : String) : String :=
  let pa := parseWikilinkContent raw
  match pa.2 with
  | some a => if a = "" then displayFromTarget pa.1 else a
  | none => displayFromTarget pa.1

-- ────────────────────────────────────────────────
-- Editor scanner (cm6Wikilinks.ts, `WIKILINK_RE`) vs preview rule
-- ────────────────────────────────────────────────

/-- A character the regex class `[^\[\]]` excludes. -/
def isBracketChar (c : Char) : Bool := c = '[' || c = ']'

/-- One match attempt of `/\[\[([^\[\]]+)\]\]/` at offset `i`.

The capture group is greedy, but since its class excludes `]` no amount
of backtracking can move the required `]]` earlier, so the regex matches
at `i` exactly when `[[` is followed by a non-empty bracket-free run
that is immediately followed by `]]`.  Returns the captured content and
the offset just past the match. -/
def editorMatchAt (s : List Char) (i : Nat) : Option (String × Nat) :=
  if (s.drop i).take 2 = ['[', '['] then
    if ((s.drop (i + 2)).takeWhile (fun c => !isBracketChar c)).length = 0 then none
    else if ((s.drop (i + 2)).drop
        ((s.drop (i + 2)).takeWhile (fun c => !isBracketChar c)).length).take 2
        = [']', ']'] then
      some (((s.drop (i + 2)).takeWhile (fun c => !isBracketChar c)).asString,
        i + 2 + ((s.drop (i + 2)).takeWhile (fun c => !isBracketChar c)).length + 2)
    else none
  else none

/-- The `while ((m = WIKILINK_RE.exec(text)) !== null)` loop: leftmost,
non-overlapping matches, resuming after each match.  `fuel` bounds the
scan (the offset strictly increases every step). -/
def editorScanAux (s : List Char) : Nat → Nat → List (Nat × String)
  | 0, _ => []
  | fuel + 1, i =>
    if i ≥ s.length then []
    else
      match editorMatchAt s i with
      | some (c, e) => (i, c) :: editorScanAux s fuel e
      | none => editorScanAux s fuel (i + 1)

/-- All wikilink occurrences `(offset, bracket content)` the editor
regex finds in `s`. -/
def editorScan (s : String) : List (Nat × String) :=
  editorScanAux s.toList (s.length + 1) 0

/-- Model of `src.indexOf(']]', start)` relative to the suffix: index of
the first position where two `]` are adjacent. -/
def findClose : List Char → Option Nat
  | [] => none
  | c :: rest =>
    if c = ']' ∧ rest.head? = some ']' then some 0
    else (findClose rest).map (· + 1)

/-- One attempt of `wikilinkInlineRule` at offset `pos` (mdWikilinks.ts):
require `[[`, find the first `]]` after `pos + 2`, require non-empty raw
content.  Returns the raw content and the token-stream resume offset
`end + 2`. -/
def previewMatchAt (s : List Char) (pos : Nat) : Option (String × Nat) :=
  if (s.drop pos).take 2 = ['[', '['] then
    match findClose (s.drop (pos + 2)) with
    | none => none
    | some k =>
      if k = 0 then none
      else some (((s.drop (pos + 2)).take k).asString, pos + 2 + k + 2)
  else none

/-- The markdown-it inline pass restricted to the wikilink rule: at each
offset try the rule; on success emit the occurrence and resume past it,
otherwise advance one character. -/
def previewScanAux (s : List Char) : Nat → Nat → List (Nat × String)
  | 0, _ => []
  | fuel + 1, pos =>
    if pos ≥ s.length then []
    else
      match previewMatchAt s pos with
      | some (raw, e) => (pos, raw) :: previewScanAux s fuel e
      | none => previewScanAux s fuel (pos + 1)

/-- All wikilink occurrences `(offset, bracket content)` the preview
rule recognises in `s`. -/
def previewScan (s : String) : List (Nat × String) :=
  previewScanAux s.toList (s.length + 1) 0

-- ────────────────────────────────────────────────
-- Note resolution (index.ts, `resolveNoteId`)
-- ────────────────────────────────────────────────

/-- A note as returned by the data API: opaque id plus title. -/
structure Note where
  id : String
  title : String
deriving DecidableEq

/-- The running best candidate of tiers 3/4:
`{ id: string; len: number }`. -/
structure Cand where
  id : String
  len : Nat
deriving DecidableEq

/-- The host data API.  `lookupById` returns `none` both for a thrown
not-found and a missing note (the code catches and falls through);
`search q` returns the sequence of pages the `while (hasMore)` loop
would fetch for query `q`, or `none` when the call throws (caught by
the resolver, which then returns `null`). -/
structure Env where
  lookupById : String → Option Note
  search : String → Option (List (List Note))

/-- `sanitiseSearchTitle`: `s.replace(/["*]/g, '')`. -/
def sanitiseSearchTitle (s : String) : String :=
  (s.toList.filter (fun c => c ≠ '"' ∧ c ≠ '*')).asString

/-- The quoted tier-2/3 query: ``title:"${safeTitle}"``. -/
def exactQuery (title : String) : String :=
  "title:\"" ++ sanitiseSearchTitle title ++ "\""

/-- The unquoted tier-4 fallback query: ``title:${safeTitle}``. -/
def fwQuery (title : String) : String :=
  "title:" ++ sanitiseSearchTitle title

/-- `/^[a-f0-9]{32}$/.test(title)`. -/
def isNoteIdShape (title : String) : Bool :=
  title.length = 32 &&
    title.toList.all (fun c => ('a' ≤ c && c ≤ 'f') || ('0' ≤ c && c ≤ '9'))

/-- Update the shortest-title candidate:
`if (!best || n.title.length < best.len) best = { id: n.id, len: n.title.length }`. -/
def betterCand (cur : Option Cand) (n : Note) : Option Cand :=
  match cur with
  | none => some ⟨n.id, n.title.length⟩
  | some c => if n.title.length < c.len then some ⟨n.id, n.title.length⟩ else some c

/-- The `for (const n of items)` body of the first search loop: stop at
the first exact (case-sensitive) title match (`break`), otherwise update
the tier-3 and tier-4 candidates.  Returns
`(exactId, caseInsensitiveMatch, firstWordMatch)`. -/
def scanPage (title titleLower : String) :
    List Note → Option Cand → Option Cand → Option String × Option Cand × Option Cand
  | [], ci, fw => (none, ci, fw)
  | n :: rest, ci, fw =>
    if n.title = title then (some n.id, ci, fw)
    else
      scanPage title titleLower rest
        (if strToLower n.title = titleLower then betterCand ci n else ci)
        (if firstWord (strToLower n.title) = titleLower then betterCand fw n else fw)

/-- The `while (hasMore)` loop of tiers 2/3/4: scan pages in order,
returning as soon as a page produced an exact match
(`if (exactId) return exactId`). -/
def scanPages (title titleLower : String) :
    List (List Note) → Option Cand → Option Cand → Option String × Option Cand × Option Cand
  | [], ci, fw => (none, ci, fw)
  | pg :: rest, ci, fw =>
    match scanPage title titleLower pg ci fw with
    | (some i, ci', fw') => (some i, ci', fw')
    | (none, ci', fw') => scanPages title titleLower rest ci' fw'

/-- Item loop of the tier-4 fallback search (unquoted query): update the
first-word candidate only. -/
def scanFWPage (titleLower : String) : List Note → Option Cand → Option Cand
  | [], fw => fw
  | n :: rest, fw =>
    scanFWPage titleLower rest
      (if firstWord (strToLower n.title) = titleLower then betterCand fw n else fw)

/-- Page loop of the tier-4 fallback search. -/
def scanFWPages (titleLower : String) : List (List Note) → Option Cand → Option Cand
  | [], fw => fw
  | pg :: rest, fw => scanFWPages titleLower rest (scanFWPage titleLower pg fw)

/-- The result selection of tiers 2–4, given the quoted search's pages:
exact match wins per page-scan order, then shortest case-insensitive
match, then shortest first-word match — issuing the unquoted fallback
query only when the quoted pass produced no first-word candidate, and
treating a throwing fallback call (`none`) as caught (`null`). -/
def resolveFromPages (env : Env) (title : String) (pages : List (List Note)) :
    Option String :=
  match scanPages title (strToLower title) pages none none with
  | (some i, _, _) => some i
  | (none, ci, fw) =>
    match ci with
    | some c => some c.id
    | none =>
      match fw with
      | some f => some f.id
      | none =>
        match env.search (fwQuery title) with
        | none => none
        | some pages2 =>
          match scanFWPages (strToLower title) pages2 none with
          | some f => some f.id
          | none => none

/-- Tiers 2–4 of `resolveNoteId` (the `try` block after the direct-id
tier): a throwing quoted search call (`none`) is caught and yields
`null`. -/
def resolveByTitle (env : Env) (title : String) : Option String :=
  match env.search (exactQuery title) with
  | none => none
  | some pages => resolveFromPages env title pages

/-- `resolveNoteId`: tier 1 (direct 32-hex id lookup, any failure or
falsy id falling through) followed by the title-search tiers. -/
def resolveNoteId (env : Env) (title : String) : Option String :=
  let direct : Option String :=
    if isNoteIdShape title then
      match env.lookupById title with
      | some n => if n.id = "" then none else some n.id
      | none => none
    else none
  match direct with
  | some i => some i
  | none => resolveByTitle env title

-- ────────────────────────────────────────────────
-- followWikilink message handling (index.ts, `handleMessage`)
-- ────────────────────────────────────────────────

/-- `raw.indexOf('#')` split: `(title, heading)` with
`title = raw.slice(0, hashIdx)` and `heading = raw.slice(hashIdx + 1)`
(`none` when `hashIdx < 0`). -/
def splitTarget (raw : String) : String × Option String :=
  match strIndexOf raw '#' with
  | some h => (strSlice raw 0 h, some (strSliceFrom raw (h + 1)))
  | none => (raw, none)

/-- Observable outcome of a `followWikilink` message. -/
inductive FollowRoute where
  /-- `scrollToHash` was executed on the current note; `resolveNoteId`
  was never called. -/
  | scrollToHash (slug : String)
  /-- `resolveNoteId` succeeded and `openNote` was executed (with the
  slug as second argument when the slug is truthy). -/
  | openNote (noteId : String) (slug : Option String)
  /-- `resolveNoteId` returned `null`; the handler replied
  `{ error: 'not_found', title }`. -/
  | notFound (title : String)
deriving DecidableEq

/-- The `followWikilink` branch of `handleMessage`, parameterised by the
host `uslug` function.  `none` models the early `if (!message.target)
return` guard.  `const slug = heading ? headingToSlug(heading) : null`
makes an empty heading produce a null slug, and the same-note branch
requires both an empty title and a truthy slug. -/
def followWikilink (env : Env) (uslug : String → String) (raw : String) :
    Option FollowRoute :=
  if raw = "" then none
  else
    let th := splitTarget raw
    let title := th.1
    let slug : Option String :=
      match th.2 with
      | some h => if h = "" then none else some (uslug h)
      | none => none
    if title = "" ∧ jsTruthy slug then some (.scrollToHash (slug.getD ""))
    else
      match resolveNoteId env title with
      | none => some (.notFound title)
      | some i =>
        if jsTruthy slug then some (.openNote i slug) else some (.openNote i none)

-- ────────────────────────────────────────────────
-- Link conversion (cm6Wikilinks.ts, `convertToWikilink`)
-- ────────────────────────────────────────────────

/-- A parsed `[text](:/noteId)` / `[text](:/noteId#slug)` link. -/
structure JoplinLink where
  linkFrom : Nat
  linkTo : Nat
  text : String
  noteId : String
  slug : Option String
deriving DecidableEq

/-- A dispatched document change
`{ changes: { from, to, insert } }`. -/
structure EditChange where
  changeFrom : Nat
  changeTo : Nat
  insert : String
deriving DecidableEq

/-- `convertToWikilink` as a function of the document at snapshot time
(`docBefore`), the document after the asynchronous `resolveTitle`
round-trip (`docAfter`), the link, and the response title (`none` for a
thrown or titleless response).  Returns the dispatched change, or
`none` when no edit is applied. -/
def convertToWikilink (docBefore docAfter : String) (link : JoplinLink)
    (respTitle : Option String) : Option EditChange :=
  let original := strSlice docBefore link.linkFrom link.linkTo
  -- `let title = link.text; if (response?.title) title = response.title`
  let title :=
    match respTitle with
    | some t => if t = "" then link.text else t
    | none => link.text
  if title = "" then none
  else if strSlice docAfter link.linkFrom link.linkTo ≠ original then none
  else
    let needsAlias := link.text ≠ "" ∧ link.text ≠ title ∧
      strToLower link.text ≠ firstWord (strToLower title)
    let textOrTitle := if link.text = "" then title else link.text
    let target :=
      if needsAlias then
        if jsTruthy link.slug then title ++ "#" ++ link.slug.getD "" else title
      else
        if jsTruthy link.slug then textOrTitle ++ "#" ++ link.slug.getD ""
        else textOrTitle
    let wikilink :=
      if needsAlias then "[[" ++ target ++ "|" ++ link.text ++ "]]"
      else "[[" ++ target ++ "]]"
    some ⟨link.linkFrom, link.linkTo, wikilink⟩

-- ────────────────────────────────────────────────
-- Line scrolling (cm6Wikilinks.ts, `scrollToWikilinkLine` command)
-- ────────────────────────────────────────────────

/-- The clamping prefix of the `scrollToWikilinkLine` editor command:
the line number actually passed to `editor.state.doc.line` after
`if (lineNumber < 1) lineNumber = 1` and
`if (lineNumber > editor.state.doc.lines) lineNumber = editor.state.doc.lines`. -/
def scrollToWikilinkLine (lineNumber : Int) (docLines : Nat) : Int :=
  let l := if lineNumber < 1 then 1 else lineNumber
  if l > (docLines : Int) then (docLines : Int) else l

-- ────────────────────────────────────────────────
-- Helper lemmas: strings and indexOf
-- ────────────────────────────────────────────────

theorem toList_append (a b : String) : (a ++ b).toList = a.toList ++ b.toList := by
  simp [String.toList]

theorem toList_length (s : String) : s.toList.length = s.length := rfl

theorem asString_toList (s : String) : s.toList.asString = s := by
  cases s; rfl

theorem charIndexOf_not_mem {l : List Char} {c : Char} (h : c ∉ l) :
    charIndexOf l c = none := by
  induction l with
  | nil => rfl
  | cons x xs ih =>
    have hx : x ≠ c := by rintro rfl; exact h (List.mem_cons_self x xs)
    simp [charIndexOf, hx, ih (fun hm => h (List.mem_cons_of_mem x hm))]

theorem charIndexOf_append_cons {l : List Char} (r : List Char) {c : Char} (h : c ∉ l) :
    charIndexOf (l ++ c :: r) c = some l.length := by
  induction l with
  | nil => simp [charIndexOf]
  | cons x xs ih =>
    have hx : x ≠ c := by rintro rfl; exact h (List.mem_cons_self x xs)
    simp [charIndexOf, hx, ih (fun hm => h (List.mem_cons_of_mem x hm))]

theorem drop_append_cons {α : Type} (l : List α) (x : α) (r : List α) :
    (l ++ x :: r).drop (l.length + 1) = r := by
  induction l with
  | nil => simp
  | cons y ys ih =>
    simp only [List.cons_append, List.length_cons, List.drop_succ_cons]
    exact ih

theorem take_append_of_length {α : Type} (l r : List α) :
    (l ++ r).take l.length = l := List.take_left l r

-- ────────────────────────────────────────────────
-- C2: display text of the preview renderer
-- ────────────────────────────────────────────────

/-- C2 (counterexample): the claim fails twice.  When stripping the
`#heading` suffix would produce an empty display text, the claim says
the raw target (with its leading `#`) is used, but for `[[#Intro]]`
the code displays the heading text `Intro` (the
`|| target.slice(hashIdx + 1)` fallback), not `#Intro`.  And the claim
says the display equals the alias whenever an alias is present, but
for `[[A|]]` the alias is present yet empty, and the JS-falsy empty
alias falls through to the target `A` instead of the empty alias. -/
theorem wikilinkDisplayText_counterexample :
    wikilinkDisplayText "#Intro" = "Intro" ∧ wikilinkDisplayText "#Intro" ≠ "#Intro" ∧
    wikilinkDisplayText "A|" = "A" ∧ wikilinkDisplayText "A|" ≠ "" := by
  decide

/-- C2 (amended): for every well-formed occurrence, the derived display
text equals the alias when a non-empty alias is present; a
present-but-empty alias behaves as if no alias were given; otherwise
the display is the target with any `#heading` suffix removed (the whole
target when it contains no `#`); otherwise — when that stripping would
produce an empty string — the heading text after the leading `#` (not
the raw target).

The five conjuncts cover every bracket content: a content with a `|`
splits at the first `|` into a bracket-content target `t` and an alias,
non-empty (first conjunct) or empty (second conjunct, reducing to the
pipe-free cases); a pipe-free content either has no `#` (third
conjunct), or splits at the first `#` into a non-empty prefix `u` and
suffix `v` (fourth conjunct) or starts with `#` (fifth conjunct). -/
theorem wikilinkDisplayText_cases (t a u v w : String) :
    ('|' ∉ t.toList → a ≠ "" → wikilinkDisplayText (t ++ "|" ++ a) = a) ∧
    ('|' ∉ t.toList → wikilinkDisplayText (t ++ "|") = wikilinkDisplayText t) ∧
    ('|' ∉ w.toList → '#' ∉ w.toList → wikilinkDisplayText w = w) ∧
    ('|' ∉ (u ++ "#" ++ v).toList → '#' ∉ u.toList → u ≠ "" →
      wikilinkDisplayText (u ++ "#" ++ v) = u) ∧
    ('|' ∉ v.toList → wikilinkDisplayText ("#" ++ v) = v) := by
  refine ⟨?_, ?_, ?_, ?_, ?_⟩
  · intro hp ha
    have hlist : (t ++ "|" ++ a).toList = t.toList ++ '|' :: a.toList := by
      simp [toList_append]
    have hidx : strIndexOf (t ++ "|" ++ a) '|' = some t.length := by
      rw [strIndexOf, hlist]; exact charIndexOf_append_cons _ hp
    have halias : strSliceFrom (t ++ "|" ++ a) (t.length + 1) = a := by
      rw [strSliceFrom, hlist]
      rw [show (t.length : Nat) = t.toList.length from rfl, drop_append_cons,
        asString_toList]
    unfold wikilinkDisplayText parseWikilinkContent
    rw [hidx]
    simp [halias, ha]
  · intro hp
    have hlist : (t ++ "|").toList = t.toList ++ '|' :: [] := by
      simp [toList_append]
    have hidx : strIndexOf (t ++ "|") '|' = some t.length := by
      rw [strIndexOf, hlist]; exact charIndexOf_append_cons _ hp
    have htarget : strSlice (t ++ "|") 0 t.length = t := by
      rw [strSlice, hlist]
      simp only [List.drop_zero, Nat.sub_zero]
      rw [show (t.length : Nat) = t.toList.length from rfl, take_append_of_length,
        asString_toList]
    have halias : strSliceFrom (t ++ "|") (t.length + 1) = "" := by
      rw [strSliceFrom, hlist]
      rw [show (t.length : Nat) = t.toList.length from rfl, drop_append_cons]
      rfl
    have hL : wikilinkDisplayText (t ++ "|") = displayFromTarget t := by
      unfold wikilinkDisplayText parseWikilinkContent
      rw [hidx]
      simp [halias, htarget]
    have hR : wikilinkDisplayText t = displayFromTarget t := by
      unfold wikilinkDisplayText parseWikilinkContent
      rw [show strIndexOf t '|' = none from by
        rw [strIndexOf]; exact charIndexOf_not_mem hp]
    rw [hL, hR]
  · intro hp hh
    have hpipe : strIndexOf w '|' = none := by
      rw [strIndexOf]; exact charIndexOf_not_mem hp
    have hhash : strIndexOf w '#' = none := by
      rw [strIndexOf]; exact charIndexOf_not_mem hh
    unfold wikilinkDisplayText parseWikilinkContent displayFromTarget
    rw [hpipe]
    simp only []
    rw [hhash]
  · intro hp hh hu
    have hlist : (u ++ "#" ++ v).toList = u.toList ++ '#' :: v.toList := by
      simp [toList_append]
    have hpipe : strIndexOf (u ++ "#" ++ v) '|' = none := by
      rw [strIndexOf]; exact charIndexOf_not_mem hp
    have hidx : strIndexOf (u ++ "#" ++ v) '#' = some u.length := by
      rw [strIndexOf, hlist]; exact charIndexOf_append_cons _ hh
    have hstrip : strSlice (u ++ "#" ++ v) 0 u.length = u := by
      rw [strSlice, hlist]
      simp only [List.drop_zero, Nat.sub_zero]
      rw [show (u.length : Nat) = u.toList.length from rfl, take_append_of_length,
        asString_toList]
    unfold wikilinkDisplayText parseWikilinkContent displayFromTarget
    rw [hpipe]
    simp only []
    rw [hidx]
    simp [hstrip, hu]
  · intro hp
    have hlist : ("#" ++ v).toList = '#' :: v.toList := by
      simp [toList_append]
    have hpipe : strIndexOf ("#" ++ v) '|' = none := by
      rw [strIndexOf, hlist]
      exact charIndexOf_not_mem (by simpa using hp)
    have hidx : strIndexOf ("#" ++ v) '#' = some 0 := by
      rw [strIndexOf, hlist]; simp [charIndexOf]
    have hempty : strSlice ("#" ++ v) 0 0 = "" := by
      rw [strSlice]; rfl
    have hrest : strSliceFrom ("#" ++ v) 1 = v := by
      rw [strSliceFrom, hlist]
      show v.toList.asString = v
      exact asString_toList v
    unfold wikilinkDisplayText parseWikilinkContent displayFromTarget
    rw [hpipe]
    simp only []
    rw [hidx]
    simp [hempty, hrest]

/-- C2 witness: the five amended cases at concrete inputs. -/
theorem wikilinkDisplayText_cases_witness :
    wikilinkDisplayText ("Note" ++ "|" ++ "Alias") = "Alias" ∧
    wikilinkDisplayText ("Note" ++ "|") = wikilinkDisplayText "Note" ∧
    wikilinkDisplayText "Plain" = "Plain" ∧
    wikilinkDisplayText ("Sec" ++ "#" ++ "Intro") = "Sec" ∧
    wikilinkDisplayText ("#" ++ "Intro") = "Intro" := by
  obtain ⟨h1, h2, h3, h4, h5⟩ := wikilinkDisplayText_cases "Note" "Alias" "Sec" "Intro" "Plain"
  exact ⟨h1 (by decide) (by decide), h2 (by decide), h3 (by decide) (by decide),
    h4 (by decide) (by decide) (by decide), h5 (by decide)⟩

-- ────────────────────────────────────────────────
-- C5: editor scanner vs preview inline rule
-- ────────────────────────────────────────────────

/-- `findClose` on a run of non-`]` characters followed by `]]` finds
exactly the end of the run. -/
theorem findClose_append_close (l t : List Char) (hl : ∀ x ∈ l, x ≠ ']') :
    findClose (l ++ ']' :: ']' :: t) = some l.length := by
  induction l with
  | nil => simp [findClose]
  | cons x xs ih =>
    have hx : x ≠ ']' := hl x (List.mem_cons_self x xs)
    have ih2 := ih (fun y hy => hl y (List.mem_cons_of_mem x hy))
    simp [findClose, hx, ih2]

/-- C5 (counterexample): the two surfaces do not recognise the same
occurrence sets, and neither inclusion holds between them.  On
`"[[a[b]]"` the editor regex (whose content class excludes brackets)
finds nothing while the preview rule (which scans to the first `]]`)
recognises a wikilink with target `a[b`; conversely, on `"[[a[[b]]"`
the editor regex finds the bracket-free occurrence `[[b]]` at offset 3,
which the preview pass never recognises because it has already consumed
the whole text as the single occurrence `(0, "a[[b")`. -/
theorem scanners_disagree_counterexample :
    (editorScan "[[a[b]]" = [] ∧ previewScan "[[a[b]]" = [(0, "a[b")]) ∧
    (editorScan "[[a[[b]]" = [(3, "b")] ∧ previewScan "[[a[[b]]" = [(0, "a[[b")]) := by
  decide

theorem drop_length_takeWhile {α : Type} (p : α → Bool) (l : List α) :
    l.drop (l.takeWhile p).length = l.dropWhile p := by
  induction l with
  | nil => rfl
  | cons x xs ih =>
    by_cases hx : p x
    · simp [List.takeWhile_cons, List.dropWhile_cons, hx, ih]
    · simp [List.takeWhile_cons, List.dropWhile_cons, hx]

theorem take_length_takeWhile {α : Type} (p : α → Bool) (l : List α) :
    l.take (l.takeWhile p).length = l.takeWhile p := by
  induction l with
  | nil => rfl
  | cons x xs ih =>
    by_cases hx : p x
    · simp [List.takeWhile_cons, hx, ih]
    · simp [List.takeWhile_cons, hx]

theorem eq_cons_cons_of_take_two {α : Type} {l : List α} {a b : α}
    (h : l.take 2 = [a, b]) : l = a :: b :: l.drop 2 := by
  cases l with
  | nil => simp at h
  | cons x xs =>
    cases xs with
    | nil => simp at h
    | cons y ys =>
      simp only [List.take_succ_cons, List.take_succ_cons, List.take_zero] at h
      have hx : x = a := by injection h
      have hy : y = b := by injection h with h1 h2; injection h2
      simp [hx, hy]

/-- Wherever the editor regex matches at an offset, the preview rule
fires at that offset with the same content and end offset: the content
run excludes `]`, so the first `]]` from the bracket position is
exactly the run's end. -/
theorem editorMatch_implies_previewMatch (s : List Char) (i : Nat) (c : String) (e : Nat)
    (h : editorMatchAt s i = some (c, e)) : previewMatchAt s i = some (c, e) := by
  unfold editorMatchAt at h
  by_cases h2 : (s.drop i).take 2 = ['[', '[']
  case neg => rw [if_neg h2] at h; exact absurd h (by simp)
  rw [if_pos h2] at h
  by_cases hlen : ((s.drop (i + 2)).takeWhile (fun x => !isBracketChar x)).length = 0
  case pos => rw [if_pos hlen] at h; exact absurd h (by simp)
  rw [if_neg hlen] at h
  by_cases hclose : ((s.drop (i + 2)).drop
      ((s.drop (i + 2)).takeWhile (fun x => !isBracketChar x)).length).take 2 = [']', ']']
  case neg => rw [if_neg hclose] at h; exact absurd h (by simp)
  rw [if_pos hclose] at h
  have hdrop2 := eq_cons_cons_of_take_two hclose
  have h1 : (s.drop (i + 2)).takeWhile (fun x => !isBracketChar x) ++
      (s.drop (i + 2)).drop ((s.drop (i + 2)).takeWhile (fun x => !isBracketChar x)).length
      = s.drop (i + 2) := by
    rw [drop_length_takeWhile]
    exact List.takeWhile_append_dropWhile _ _
  have hsplit : s.drop (i + 2) = (s.drop (i + 2)).takeWhile (fun x => !isBracketChar x) ++
      ']' :: ']' :: ((s.drop (i + 2)).drop
        ((s.drop (i + 2)).takeWhile (fun x => !isBracketChar x)).length).drop 2 := by
    conv_lhs => rw [← h1, hdrop2]
  have hne : ∀ x ∈ (s.drop (i + 2)).takeWhile (fun y => !isBracketChar y), x ≠ ']' := by
    intro x hx
    have hpx := List.mem_takeWhile_imp hx
    simp [isBracketChar] at hpx
    exact hpx.2
  have hfind : findClose (s.drop (i + 2)) =
      some ((s.drop (i + 2)).takeWhile (fun x => !isBracketChar x)).length := by
    conv_lhs => rw [hsplit]
    exact findClose_append_close _ _ hne
  unfold previewMatchAt
  rw [if_pos h2, hfind]
  show (if ((s.drop (i + 2)).takeWhile (fun x => !isBracketChar x)).length = 0 then none
    else some (((s.drop (i + 2)).take
        ((s.drop (i + 2)).takeWhile (fun x => !isBracketChar x)).length).asString,
      i + 2 + ((s.drop (i + 2)).takeWhile (fun x => !isBracketChar x)).length + 2))
    = some (c, e)
  rw [if_neg hlen, take_length_takeWhile]
  exact h

/-- Beyond the end of the text the editor matcher finds nothing. -/
theorem editorMatchAt_none_of_le (s : List Char) (i : Nat) (h : s.length ≤ i) :
    editorMatchAt s i = none := by
  unfold editorMatchAt
  rw [List.drop_eq_nil_of_le h]
  rw [if_neg (by decide)]

/-- Beyond the end of the text the preview matcher finds nothing. -/
theorem previewMatchAt_none_of_le (s : List Char) (i : Nat) (h : s.length ≤ i) :
    previewMatchAt s i = none := by
  unfold previewMatchAt
  rw [List.drop_eq_nil_of_le h]
  rw [if_neg (by decide)]

/-- Two scans whose per-offset matchers agree everywhere produce the
same occurrence list. -/
theorem scanAux_congr (s : List Char)
    (h : ∀ i, editorMatchAt s i = previewMatchAt s i) :
    ∀ fuel i, editorScanAux s fuel i = previewScanAux s fuel i := by
  intro fuel
  induction fuel with
  | zero => intro i; rfl
  | succ f ih =>
    intro i
    rw [editorScanAux, previewScanAux, ← h i]
    by_cases hi : i ≥ s.length
    · rw [if_pos hi, if_pos hi]
    · rw [if_neg hi, if_neg hi]
      cases hm : editorMatchAt s i with
      | none => exact ih (i + 1)
      | some pr =>
        obtain ⟨c, e⟩ := pr
        simp only [ih e]

/-- C5 (amended): the two surfaces do not always recognise the same
set of wikilink occurrences — the sets can differ in both directions
when bracket characters occur inside a candidate (see the
counterexample).  What does hold: (a) at any offset where the editor
regex matches, the preview rule recognises the identical occurrence
(same content and end offset); and (b) on every source text whose
per-offset matchers agree at all offsets — i.e. where the preview rule
accepts nothing the editor regex rejects — the editor scan and the
preview scan recognise exactly the same occurrence set. -/
theorem editor_preview_scan_agreement (s : String) :
    (∀ i c e, editorMatchAt s.toList i = some (c, e) →
      previewMatchAt s.toList i = some (c, e)) ∧
    ((∀ i, editorMatchAt s.toList i = previewMatchAt s.toList i) →
      editorScan s = previewScan s) := by
  constructor
  · exact fun i c e h => editorMatch_implies_previewMatch s.toList i c e h
  · intro h
    unfold editorScan previewScan
    exact scanAux_congr s.toList h (s.length + 1) 0

/-- C5 witness: both amended parts at concrete inputs — the editor
match at offset 2 of `"x [[ab]] y"` is recognised identically by the
preview rule, and on that text (whose matchers agree at every offset)
the two full scans coincide. -/
theorem editor_preview_scan_agreement_witness :
    previewMatchAt "x [[ab]] y".toList 2 = some ("ab", 8) ∧
    editorScan "x [[ab]] y" = previewScan "x [[ab]] y" := by
  obtain ⟨h1, h2⟩ := editor_preview_scan_agreement "x [[ab]] y"
  refine ⟨h1 2 "ab" 8 (by decide), h2 ?_⟩
  intro i
  by_cases hi : i < ("x [[ab]] y".toList).length
  · exact (by decide : ∀ j, j < ("x [[ab]] y".toList).length →
      editorMatchAt "x [[ab]] y".toList j = previewMatchAt "x [[ab]] y".toList j) i hi
  · rw [editorMatchAt_none_of_le _ _ (Nat.le_of_not_lt hi),
      previewMatchAt_none_of_le _ _ (Nat.le_of_not_lt hi)]

-- ────────────────────────────────────────────────
-- Resolution lemmas: exact-match tier
-- ────────────────────────────────────────────────

theorem scanPage_exact_some (title tl : String) (items : List Note) (n : Note)
    (h : items.find? (fun m => m.title == title) = some n) :
    ∀ ci fw, (scanPage title tl items ci fw).1 = some n.id := by
  induction items with
  | nil => simp at h
  | cons m rest ih =>
    intro ci fw
    by_cases hm : m.title = title
    · have hn : n = m := by
        rw [List.find?_cons_of_pos _ (by simp [hm])] at h
        exact (Option.some.injEq _ _ ▸ h).symm
      simp [scanPage, hm, hn]
    · rw [List.find?_cons_of_neg _ (by simp [hm])] at h
      rw [scanPage, if_neg hm]
      exact ih h _ _

theorem scanPage_exact_none (title tl : String) (items : List Note)
    (h : items.find? (fun m => m.title == title) = none) :
    ∀ ci fw, ∃ ci2 fw2, scanPage title tl items ci fw = (none, ci2, fw2) := by
  induction items with
  | nil => exact fun ci fw => ⟨ci, fw, rfl⟩
  | cons m rest ih =>
    intro ci fw
    by_cases hm : m.title = title
    · rw [List.find?_cons_of_pos _ (by simp [hm])] at h
      exact absurd h (by simp)
    · rw [List.find?_cons_of_neg _ (by simp [hm])] at h
      rw [scanPage, if_neg hm]
      exact ih h _ _

theorem scanPages_exact_some (title tl : String) (pages : List (List Note)) (n : Note)
    (h : pages.flatten.find? (fun m => m.title == title) = some n) :
    ∀ ci fw, (scanPages title tl pages ci fw).1 = some n.id := by
  induction pages with
  | nil => simp at h
  | cons pg rest ih =>
    intro ci fw
    rw [List.flatten_cons, List.find?_append] at h
    cases hpg : pg.find? (fun m => m.title == title) with
    | some m =>
      have hn : n = m := by rw [hpg] at h; simp [Option.or] at h; exact h.symm
      have h1 := scanPage_exact_some title tl pg m hpg ci fw
      rcases htrip : scanPage title tl pg ci fw with ⟨ex, ci2, fw2⟩
      rw [htrip] at h1
      simp only at h1
      subst h1
      simp [scanPages, htrip, hn]
    | none =>
      rw [hpg, Option.none_or] at h
      obtain ⟨ci2, fw2, hsp⟩ := scanPage_exact_none title tl pg hpg ci fw
      simp only [scanPages, hsp]
      exact ih h _ _

/-- Shared helper: when tier 1 abstains (no id-shaped title, or the
lookup fails), `resolveNoteId` is exactly the title-search tiers. -/
theorem resolveNoteId_tier1_none (env : Env) (title : String)
    (h1 : isNoteIdShape title = true → env.lookupById title = none) :
    resolveNoteId env title = resolveByTitle env title := by
  unfold resolveNoteId
  by_cases hid : isNoteIdShape title = true
  · rw [if_pos hid, h1 hid]
  · rw [if_neg hid]

/-- Shared helper: when tier 1 abstains and the quoted search pages
contain a note whose title is byte-for-byte equal to the original
title, `resolveNoteId` returns the first such note's id. -/
theorem resolveNoteId_exact_of_find (env : Env) (title : String)
    (pages : List (List Note)) (n : Note)
    (h1 : isNoteIdShape title = true → env.lookupById title = none)
    (hs : env.search (exactQuery title) = some pages)
    (hf : pages.flatten.find? (fun m => m.title == title) = some n) :
    resolveNoteId env title = some n.id := by
  have hfrom : resolveFromPages env title pages = some n.id := by
    have hx := scanPages_exact_some title (strToLower title) pages n hf none none
    unfold resolveFromPages
    rcases htrip : scanPages title (strToLower title) pages none none with ⟨ex, ci, fw⟩
    rw [htrip] at hx
    simp only at hx
    subst hx
    rfl
  rw [resolveNoteId_tier1_none env title h1]
  unfold resolveByTitle
  rw [hs]
  exact hfrom

-- ────────────────────────────────────────────────
-- C1: the "apple" store
-- ────────────────────────────────────────────────

/-- The note store of C1: any title search returns the single page
`[{id:1, title:"Apple"}, {id:2, title:"APPLE"}, {id:3, title:"Apple Pie"}]`;
no direct-id lookup succeeds. -/
def envApple : Env :=
  ⟨fun _ => none,
   fun _ => some [[⟨"1", "Apple"⟩, ⟨"2", "APPLE"⟩, ⟨"3", "Apple Pie"⟩]]⟩

/-- C1 (counterexample): the claim says resolving `"apple"` returns
id 2 and never id 1.  `"Apple"` and `"APPLE"` are both case-insensitive
matches of the same (shortest) length 5, and the code keeps the
first-seen candidate on ties (`n.title.length < best.len` is strict),
so it returns id 1, not id 2. -/
theorem resolveNoteId_apple_counterexample :
    resolveNoteId envApple "apple" = some "1" ∧
    resolveNoteId envApple "apple" ≠ some "2" := by
  decide

/-- C1 (amended): on that store, resolving `"apple"` returns id 1 —
the first-seen among the equally-shortest case-insensitive matches —
and never id 3 (whose title is strictly longer). -/
theorem resolveNoteId_apple_first_seen :
    resolveNoteId envApple "apple" = some "1" ∧
    resolveNoteId envApple "apple" ≠ some "3" := by
  decide

-- ────────────────────────────────────────────────
-- C3: exact match wins in page-scan order, before tier 4
-- ────────────────────────────────────────────────

/-- C3: when the quoted search pages contain a note whose title equals
the original title byte-for-byte, `resolveNoteId` returns the first
such note (in page-scan order); the tier-4 first-word candidates,
whatever they are, are never consulted. -/
theorem resolveNoteId_exact_first (env : Env) (title : String)
    (pages : List (List Note)) (n : Note)
    (h1 : isNoteIdShape title = true → env.lookupById title = none)
    (hs : env.search (exactQuery title) = some pages)
    (hf : pages.flatten.find? (fun m => m.title == title) = some n) :
    resolveNoteId env title = some n.id :=
  resolveNoteId_exact_of_find env title pages n h1 hs hf

/-- The note store of C3: `{id:1, title:"202301 Long Note Title"}`
followed by `{id:2, title:"202301"}`. -/
def envZettel : Env :=
  ⟨fun _ => none,
   fun _ => some [[⟨"1", "202301 Long Note Title"⟩, ⟨"2", "202301"⟩]]⟩

/-- C3 witness: resolving `"202301"` on that store yields id 2 via the
exact-match tier, even though note 1 is an earlier first-word match. -/
theorem resolveNoteId_exact_first_witness :
    ([[⟨"1", "202301 Long Note Title"⟩, ⟨"2", "202301"⟩]] : List (List Note)).flatten.find?
        (fun m => m.title == "202301") = some ⟨"2", "202301"⟩ ∧
    resolveNoteId envZettel "202301" = some "2" :=
  ⟨by decide,
   resolveNoteId_exact_first envZettel "202301"
     [[⟨"1", "202301 Long Note Title"⟩, ⟨"2", "202301"⟩]] ⟨"2", "202301"⟩
     (fun _ => rfl) rfl (by decide)⟩

-- ────────────────────────────────────────────────
-- C4: sanitisation affects only the outgoing query
-- ────────────────────────────────────────────────

theorem isNoteIdShape_false_of_special (title : String)
    (h : '"' ∈ title.toList ∨ '*' ∈ title.toList) :
    isNoteIdShape title = false := by
  have hall : title.toList.all
      (fun c => ('a' ≤ c && c ≤ 'f') || ('0' ≤ c && c ≤ '9')) = false := by
    rw [List.all_eq_false]
    rcases h with h | h
    · exact ⟨'"', h, by decide⟩
    · exact ⟨'*', h, by decide⟩
  unfold isNoteIdShape
  rw [hall, Bool.and_false]

/-- C4: for a title containing `"` or `*`, the query sent to the search
facility embeds only the sanitised form (`exactQuery`), while the
exact comparison still uses the original title: if the returned pages
contain a note whose literal title equals the original title,
resolution succeeds with that note. -/
theorem resolveNoteId_sanitise_roundtrip (env : Env) (title : String)
    (pages : List (List Note)) (n : Note)
    (hspecial : '"' ∈ title.toList ∨ '*' ∈ title.toList)
    (hs : env.search (exactQuery title) = some pages)
    (hf : pages.flatten.find? (fun m => m.title == title) = some n) :
    resolveNoteId env title = some n.id := by
  have hid := isNoteIdShape_false_of_special title hspecial
  exact resolveNoteId_exact_of_find env title pages n
    (fun hx => absurd hx (by simp [hid])) hs hf

/-- The note store of C4: a single note whose title contains a quote. -/
def envQuote : Env := ⟨fun _ => none, fun _ => some [[⟨"9", "A\"B"⟩]]⟩

/-- C4 witness: `"A\"B"` resolves to the note with that literal title
even though the outgoing query contains the sanitised `AB`. -/
theorem resolveNoteId_sanitise_roundtrip_witness :
    '"' ∈ ("A\"B").toList ∧
    exactQuery "A\"B" = "title:\"AB\"" ∧
    resolveNoteId envQuote "A\"B" = some "9" :=
  ⟨by decide, by decide,
   resolveNoteId_sanitise_roundtrip envQuote "A\"B" [[⟨"9", "A\"B"⟩]] ⟨"9", "A\"B"⟩
     (Or.inl (by decide)) rfl (by decide)⟩

-- ────────────────────────────────────────────────
-- C8: id-shaped titles fall through on lookup failure
-- ────────────────────────────────────────────────

/-- C8: when a title has the 32-hex identifier shape but the direct
lookup fails (thrown not-found), the failure is swallowed and
resolution proceeds with the tier-2 title search. -/
theorem resolveNoteId_id_shape_fallthrough (env : Env) (title : String)
    (_hid : isNoteIdShape title = true) (hlk : env.lookupById title = none) :
    resolveNoteId env title = resolveByTitle env title :=
  resolveNoteId_tier1_none env title (fun _ => hlk)

/-- The store of the C8 witness: no note has the id-shaped title as its
id, but the title search finds a note carrying it as a title. -/
def envHex : Env :=
  ⟨fun _ => none, fun _ => some [[⟨"z1", "0123456789abcdef0123456789abcdef"⟩]]⟩

/-- C8 witness: an id-shaped title whose lookup fails still resolves
through the search tiers. -/
theorem resolveNoteId_id_shape_fallthrough_witness :
    isNoteIdShape "0123456789abcdef0123456789abcdef" = true ∧
    resolveNoteId envHex "0123456789abcdef0123456789abcdef" =
      resolveByTitle envHex "0123456789abcdef0123456789abcdef" ∧
    resolveNoteId envHex "0123456789abcdef0123456789abcdef" = some "z1" :=
  ⟨by decide, resolveNoteId_id_shape_fallthrough envHex _ (by decide) rfl, by decide⟩

-- ────────────────────────────────────────────────
-- Resolution lemmas: the no-candidate case
-- ────────────────────────────────────────────────

theorem scanPage_no_match (title tl : String) (items : List Note)
    (h : ∀ n ∈ items, n.title ≠ title ∧ strToLower n.title ≠ tl ∧
      firstWord (strToLower n.title) ≠ tl) :
    ∀ ci fw, scanPage title tl items ci fw = (none, ci, fw) := by
  induction items with
  | nil => intro ci fw; rfl
  | cons m rest ih =>
    intro ci fw
    obtain ⟨hx1, hx2, hx3⟩ := h m (List.mem_cons_self m rest)
    rw [scanPage, if_neg hx1, if_neg hx2, if_neg hx3]
    exact ih (fun n hn => h n (List.mem_cons_of_mem m hn)) ci fw

theorem scanPages_no_match (title tl : String) (pages : List (List Note))
    (h : ∀ pg ∈ pages, ∀ n ∈ pg, n.title ≠ title ∧ strToLower n.title ≠ tl ∧
      firstWord (strToLower n.title) ≠ tl) :
    ∀ ci fw, scanPages title tl pages ci fw = (none, ci, fw) := by
  induction pages with
  | nil => intro ci fw; rfl
  | cons pg rest ih =>
    intro ci fw
    rw [scanPages, scanPage_no_match title tl pg (h pg (List.mem_cons_self pg rest)) ci fw]
    exact ih (fun p hp => h p (List.mem_cons_of_mem pg hp)) ci fw

theorem scanFWPage_no_match (tl : String) (items : List Note)
    (h : ∀ n ∈ items, firstWord (strToLower n.title) ≠ tl) :
    ∀ fw, scanFWPage tl items fw = fw := by
  induction items with
  | nil => intro fw; rfl
  | cons m rest ih =>
    intro fw
    rw [scanFWPage, if_neg (h m (List.mem_cons_self m rest))]
    exact ih (fun n hn => h n (List.mem_cons_of_mem m hn)) fw

theorem scanFWPages_no_match (tl : String) (pages : List (List Note))
    (h : ∀ pg ∈ pages, ∀ n ∈ pg, firstWord (strToLower n.title) ≠ tl) :
    ∀ fw, scanFWPages tl pages fw = fw := by
  induction pages with
  | nil => intro fw; rfl
  | cons pg rest ih =>
    intro fw
    rw [scanFWPages, scanFWPage_no_match tl pg (h pg (List.mem_cons_self pg rest)) fw]
    exact ih (fun p hp => h p (List.mem_cons_of_mem pg hp)) fw

/-- Shared helper: when tier 1 abstains and every search call either
throws or returns pages with no exact, case-insensitive or first-word
candidate, `resolveNoteId` returns `null` (no exception escapes). -/
theorem resolveNoteId_no_candidate (env : Env) (title : String)
    (h1 : isNoteIdShape title = true → env.lookupById title = none)
    (h2 : ∀ q, env.search q = none ∨ ∃ pgs, env.search q = some pgs ∧
      ∀ pg ∈ pgs, ∀ n ∈ pg, n.title ≠ title ∧
        strToLower n.title ≠ strToLower title ∧
        firstWord (strToLower n.title) ≠ strToLower title) :
    resolveNoteId env title = none := by
  rw [resolveNoteId_tier1_none env title h1]
  unfold resolveByTitle
  rcases h2 (exactQuery title) with hq | ⟨pgs, hq, hno⟩
  · rw [hq]
  · rw [hq]
    show resolveFromPages env title pgs = none
    unfold resolveFromPages
    rw [scanPages_no_match title (strToLower title) pgs hno none none]
    show (match env.search (fwQuery title) with
      | none => none
      | some pages2 =>
        match scanFWPages (strToLower title) pages2 none with
        | some f => some f.id
        | none => none) = none
    rcases h2 (fwQuery title) with hq2 | ⟨pgs2, hq2, hno2⟩
    · rw [hq2]
    · rw [hq2]
      show (match scanFWPages (strToLower title) pgs2 none with
        | some f => some f.id
        | none => none) = none
      rw [scanFWPages_no_match (strToLower title) pgs2
        (fun pg hpg n hn => (hno2 pg hpg n hn).2.2) none]

-- ────────────────────────────────────────────────
-- C9: not-found is reported, never thrown
-- ────────────────────────────────────────────────

/-- C9: when tier 1 abstains and every search call either throws or
returns only notes that match no tier, `resolveNoteId` yields `null`
(no exception propagates), and the `followWikilink` handler replies
`{ error: 'not_found', title }` with the unresolved title. -/
theorem resolveNoteId_not_found_reported (env : Env) (uslugf : String → String)
    (raw : String)
    (hraw : raw ≠ "")
    (htitle : (splitTarget raw).1 ≠ "")
    (h1 : isNoteIdShape (splitTarget raw).1 = true →
      env.lookupById (splitTarget raw).1 = none)
    (h2 : ∀ q, env.search q = none ∨ ∃ pgs, env.search q = some pgs ∧
      ∀ pg ∈ pgs, ∀ n ∈ pg, n.title ≠ (splitTarget raw).1 ∧
        strToLower n.title ≠ strToLower (splitTarget raw).1 ∧
        firstWord (strToLower n.title) ≠ strToLower (splitTarget raw).1) :
    followWikilink env uslugf raw = some (.notFound (splitTarget raw).1) := by
  have hres := resolveNoteId_no_candidate env (splitTarget raw).1 h1 h2
  unfold followWikilink
  rw [if_neg hraw]
  dsimp only
  rw [if_neg (fun hc => htitle hc.1)]
  rw [hres]

/-- The store of the C9 witness: only an unrelated note exists. -/
def envOther : Env := ⟨fun _ => none, fun _ => some [[⟨"x1", "Other"⟩]]⟩

/-- C9 witness: resolving `"Nonexistent"` reports not-found with the
title. -/
theorem resolveNoteId_not_found_reported_witness :
    followWikilink envOther (fun s => s) "Nonexistent" =
      some (.notFound (splitTarget "Nonexistent").1) :=
  resolveNoteId_not_found_reported envOther (fun s => s) "Nonexistent"
    (by decide) (by decide) (fun _ => rfl)
    (fun _ => Or.inr ⟨[[⟨"x1", "Other"⟩]], rfl, by decide⟩)

-- ────────────────────────────────────────────────
-- C6: same-note jumps and the empty-heading hole
-- ────────────────────────────────────────────────

/-- The empty store used by the C6 counterexample. -/
def envEmptyStore : Env := ⟨fun _ => none, fun _ => some []⟩

/-- C6 (counterexample): the claim says every target with an empty
title part routes to the in-place scroll path and never reaches
`resolveNoteId`.  The target `"#"` has an empty title part, but its
heading is also empty, so `heading ? headingToSlug(heading) : null`
leaves the slug null and the handler falls through to
`resolveNoteId("")` — here reaching the not-found reply, not the
scroll path. -/
theorem followWikilink_hash_only_counterexample :
    (splitTarget "#").1 = "" ∧
    followWikilink envEmptyStore (fun s => s) "#" = some (.notFound "") := by
  decide

/-- C6 (amended): a target with an empty title part routes directly to
the in-place scroll path — without calling `resolveNoteId` — provided
its heading part is non-empty and slugifies to a non-empty slug; the
target `"#"` (empty heading) instead reaches `resolveNoteId` with the
empty title. -/
theorem followWikilink_same_note_jump (env : Env) (uslugf : String → String)
    (raw hd : String) (hraw : raw ≠ "") (hsplit : splitTarget raw = ("", some hd))
    (hhd : hd ≠ "") (hslug : uslugf hd ≠ "") :
    followWikilink env uslugf raw = some (.scrollToHash (uslugf hd)) := by
  unfold followWikilink
  rw [if_neg hraw, hsplit]
  dsimp only
  rw [if_neg hhd]
  rw [if_pos ⟨rfl, by simp [jsTruthy, hslug]⟩]
  rfl

/-- C6 witness: `[[#Intro]]` scrolls in place. -/
theorem followWikilink_same_note_jump_witness :
    followWikilink envEmptyStore (fun s => s) "#Intro" =
      some (.scrollToHash "Intro") :=
  followWikilink_same_note_jump envEmptyStore (fun s => s) "#Intro" "Intro"
    (by decide) (by decide) (by decide) (by decide)

-- ────────────────────────────────────────────────
-- C7: stale-span check during link conversion
-- ────────────────────────────────────────────────

/-- C7: if the document content at the link's span after the
asynchronous title lookup differs from the snapshot taken before it,
no edit is dispatched; an edit is applied only when the span content
equals the snapshot. -/
theorem convertToWikilink_stale_snapshot (docBefore docAfter : String)
    (link : JoplinLink) (respTitle : Option String)
    (h : strSlice docAfter link.linkFrom link.linkTo ≠
      strSlice docBefore link.linkFrom link.linkTo) :
    convertToWikilink docBefore docAfter link respTitle = none := by
  unfold convertToWikilink
  dsimp only
  rw [if_pos h]
  split <;> rfl

/-- C7 witness: a document edited during the round-trip is left
unchanged. -/
theorem convertToWikilink_stale_snapshot_witness :
    strSlice "abXdef" 1 4 ≠ strSlice "abcdef" 1 4 ∧
    convertToWikilink "abcdef" "abXdef" ⟨1, 4, "t", "deadbeef", none⟩
      (some "Title") = none :=
  ⟨by decide, convertToWikilink_stale_snapshot "abcdef" "abXdef" _ _ (by decide)⟩

-- ────────────────────────────────────────────────
-- C10: line clamping in scrollToWikilinkLine
-- ────────────────────────────────────────────────

/-- C10: for every integer argument, the requested line is clamped into
`[1, docLines]` before `doc.line` is called (a CodeMirror document
always has at least one line). -/
theorem scrollToWikilinkLine_clamped (lineNumber : Int) (docLines : Nat)
    (h : 1 ≤ docLines) :
    1 ≤ scrollToWikilinkLine lineNumber docLines ∧
    scrollToWikilinkLine lineNumber docLines ≤ (docLines : Int) := by
  unfold scrollToWikilinkLine
  dsimp only
  split_ifs <;> constructor <;> omega

/-- C10 witness: a negative request clamps to line 1. -/
theorem scrollToWikilinkLine_clamped_witness :
    1 ≤ scrollToWikilinkLine (-7) 3 ∧ scrollToWikilinkLine (-7) 3 ≤ (3 : Int) :=
  scrollToWikilinkLine_clamped (-7) 3 (by decide)

end Wikilinks
